import Mathlib

/-!
Verification of the asynchronous codec pump of `src/native/avcodec/codec-context.cpp`
(class `NAVCodecContext`): the feed/drain loop of the Pump Thread, the unit pools,
the work queue and submission protocol, and the lifecycle operations.

The embedding models the native codec engine (`avcodec_send_frame`,
`avcodec_send_packet`, `avcodec_receive_frame`, `avcodec_receive_packet`,
`avcodec_open2`) as integer-result oracles, exactly as the C++ code consumes
their `int` return values. Error constants follow the libav ABI on the target
platform: `AVERROR(EAGAIN) = -11`, `AVERROR_EOF = -MKTAG('E','O','F',' ')`.
-/

namespace CodecPump

/-- Result value `AVERROR(EAGAIN)`: `EAGAIN = 11` on Linux, `AVERROR(e) = -e`. -/
def AVERROR_EAGAIN : Int := -11

/-- Result value `AVERROR_EOF = FFERRTAG('E','O','F',' ') = -0x20464F45`. -/
def AVERROR_EOF : Int := -541478725

/-- An Input Unit as stored in `inQueue` (`struct WorkItem`): the queue only ever
holds items with exactly one of `frame` / `packet` set (cf. `SendFrame`, which is
the only producer into `inQueue`), so we model it as a tagged variant. The `Nat`
identifies the underlying native handle. -/
inductive WorkItem where
  | frame (id : Nat)
  | packet (id : Nat)
deriving DecidableEq, Repr

/-- Everything observable about one run of `NAVCodecContext::FeedToCodec` over the
swapped-out local queue:
`sent` is the list of items accepted by the engine in send order, `attempts` the
list of items passed to `avcodec_send_*` in call order, `errored` the items
discarded after a hard engine error, `errorEvents` the number of `SendError`
calls, `leftover` the local items left unconsumed (pushed back to the front of
`inQueue`), and `fed` the boolean the function returns. -/
structure FeedOutcome where
  sent : List WorkItem
  attempts : List WorkItem
  errored : List WorkItem
  errorEvents : Nat
  leftover : List WorkItem
  fed : Bool
deriving DecidableEq, Repr

/-- The `while (running && localQueue.size() > 0)` loop of
`NAVCodecContext::FeedToCodec` (codec-context.cpp lines 139-160). The engine
oracle `engine k` gives the `int` returned by the `k`-th `avcodec_send_*` call of
this phase; `k` is the index of the next send attempt. On `AVERROR(EAGAIN)` the
loop breaks with the current item still in the local queue; on a negative result
it emits one error event, pops the current item, and breaks; otherwise it marks
`fed`, pops, and continues. -/
def feedLoop (engine : Nat → Int) (running : Bool) : Nat → List WorkItem → FeedOutcome
  | _, [] =>
    { sent := [], attempts := [], errored := [], errorEvents := 0, leftover := [], fed := false }
  | k, item :: rest =>
    if running then
      let result := engine k
      if result = AVERROR_EAGAIN then
        { sent := [], attempts := [item], errored := [], errorEvents := 0,
          leftover := item :: rest, fed := false }
      else if result < 0 then
        { sent := [], attempts := [item], errored := [item], errorEvents := 1,
          leftover := rest, fed := false }
      else
        let o := feedLoop engine running (k + 1) rest
        { sent := item :: o.sent, attempts := item :: o.attempts, errored := o.errored,
          errorEvents := o.errorEvents, leftover := o.leftover, fed := true }
    else
      { sent := [], attempts := [], errored := [], errorEvents := 0,
        leftover := item :: rest, fed := false }

/-- `NAVCodecContext::FeedToCodec` (codec-context.cpp lines 125-173): swap
`inQueue` into a local queue under the lock, run the feed loop unlocked, then
push the leftover back onto the front of `inQueue` preserving order
(`inQueue.push_front(localQueue.back())` repeated). `newSubs` are the items that
concurrent `SendFrame` calls appended to `inQueue` while the lock was released;
the returned list is the content of `inQueue` after the push-back. -/
def feedToCodec (engine : Nat → Int) (running : Bool) (inQueue newSubs : List WorkItem) :
    FeedOutcome × List WorkItem :=
  if inQueue.isEmpty then
    ({ sent := [], attempts := [], errored := [], errorEvents := 0, leftover := [],
       fed := false }, newSubs)
  else
    let o := feedLoop engine running 0 inQueue
    (o, o.leftover ++ newSubs)

/-- A Unit Pool (`framePool`/`packetPool` plus `framePoolHeight`/`packetPoolHeight`):
a FIFO of container ids (front first) and the height counter. `nextId` stands in
for the allocator (`av_frame_alloc`/`av_packet_alloc` produce fresh handles).
The height fields are `uint32_t` in the source; all modelled operations keep
`height` in `Nat` range (a Release is only ever performed for a checked-out
container, so the decrement never wraps). -/
structure Pool where
  fifo : List Nat
  height : Nat
  nextId : Nat
deriving DecidableEq, Repr

/-- The initial, empty pool of a freshly constructed context. -/
def poolInit : Pool :=
  { fifo := [], height := 0, nextId := 0 }

/-- `NAVCodecContext::GetPoolFrame` / `GetPoolPacket` (codec-context.cpp lines
51-62 and 76-87): under the lock, if the pool is empty push one freshly
allocated container; then pop the front container, increment the height, and
return it. -/
def poolAcquire (p : Pool) : Nat × Pool :=
  match p.fifo with
  | [] => (p.nextId, { fifo := [], height := p.height + 1, nextId := p.nextId + 1 })
  | c :: rest => (c, { fifo := rest, height := p.height + 1, nextId := p.nextId })

/-- `NAVCodecContext::FreePoolFrame` / `FreePoolPacket` (codec-context.cpp lines
64-74 and 89-99): push the container to the pool tail, decrement the height, and
if the pool size now exceeds `height + 4`, pop and destroy the single oldest
pooled container. The second component is the burnt container, if any. -/
def poolRelease (p : Pool) (c : Nat) : Pool × Option Nat :=
  let fifo := p.fifo ++ [c]
  let height := p.height - 1
  if fifo.length > height + 4 then
    match fifo with
    | [] => ({ fifo := [], height := height, nextId := p.nextId }, none)
    | b :: rest => ({ fifo := rest, height := height, nextId := p.nextId }, some b)
  else
    ({ fifo := fifo, height := height, nextId := p.nextId }, none)

/-- One abstract pool operation: an Acquire, or a Release of a checked-out
container (the released handle itself does not influence size or height, so it
is not tracked). -/
inductive PoolOp where
  | acquire
  | release
deriving DecidableEq, Repr

/-- Apply one pool operation. -/
def poolStep (p : Pool) : PoolOp → Pool
  | .acquire => (poolAcquire p).2
  | .release => (poolRelease p 0).1

/-- Run a sequence of pool operations from a given state. -/
def poolRun (p : Pool) : List PoolOp → Pool
  | [] => p
  | op :: ops => poolRun (poolStep p op) ops

/-- An operation sequence is valid from `p` when every Release happens while at
least one container is checked out (`height` is positive). -/
def poolValidOps (p : Pool) : List PoolOp → Bool
  | [] => true
  | .acquire :: ops => poolValidOps (poolStep p .acquire) ops
  | .release :: ops => decide (1 ≤ p.height) && poolValidOps (poolStep p .release) ops

/-- Pool states reachable from the initial empty pool by acquires and by
releases of checked-out containers. -/
inductive PoolReachable : Pool → Prop where
  | init : PoolReachable poolInit
  | acquire {p : Pool} : PoolReachable p → PoolReachable (poolStep p .acquire)
  | release {p : Pool} : PoolReachable p → 1 ≤ p.height → PoolReachable (poolStep p .release)

/-- Everything observable about one run of `PullFromDecoder`/`PullFromEncoder`:
`dispatched` lists the indices of the receive calls whose produced unit was
forwarded to the callback (in dispatch order), `errors` the codes passed to
`SendError`, `receives` the number of `avcodec_receive_*` calls made, and `pool`
the pool state when the loop exits. -/
structure DrainOutcome where
  dispatched : List Nat
  errors : List Int
  receives : Nat
  pool : Pool
deriving DecidableEq, Repr

/-- `NAVCodecContext::PullFromDecoder` (codec-context.cpp lines 175-201): while
running, break if `onFrameValid` is false; otherwise acquire a pooled frame and
call `avcodec_receive_frame` (result of the `k`-th call given by the oracle
`recv k`). The source tests `AVERROR(result) == EAGAIN`, i.e. `-result = 11`:
release the frame to the pool and break. Any other negative result emits one
error event and breaks, without returning the frame to the pool. Otherwise the
frame is dispatched to the callback (ownership leaves the pool) and the loop
continues. `fuel` bounds the number of iterations modelled; the claims below
only concern runs in which the loop exits within the given fuel. -/
def pullFromDecoder (recv : Nat → Int) (running onFrameValid : Bool) :
    Nat → Nat → Pool → DrainOutcome
  | 0, _, p => { dispatched := [], errors := [], receives := 0, pool := p }
  | fuel + 1, k, p =>
    if ¬ running then
      { dispatched := [], errors := [], receives := 0, pool := p }
    else if ¬ onFrameValid then
      { dispatched := [], errors := [], receives := 0, pool := p }
    else
      let a := poolAcquire p
      let result := recv k
      if -result = 11 then
        { dispatched := [], errors := [], receives := 1, pool := (poolRelease a.2 a.1).1 }
      else if result < 0 then
        { dispatched := [], errors := [result], receives := 1, pool := a.2 }
      else
        let o := pullFromDecoder recv running onFrameValid fuel (k + 1) a.2
        { dispatched := k :: o.dispatched, errors := o.errors,
          receives := o.receives + 1, pool := o.pool }

/-- `NAVCodecContext::PullFromEncoder` (codec-context.cpp lines 203-232): same
loop against the packet pool and `onPacketValid`, except the starvation test is
`AVERROR(result) == EAGAIN || result == AVERROR_EOF`, so an end-of-stream
result also releases the container and breaks without an error event. -/
def pullFromEncoder (recv : Nat → Int) (running onPacketValid : Bool) :
    Nat → Nat → Pool → DrainOutcome
  | 0, _, p => { dispatched := [], errors := [], receives := 0, pool := p }
  | fuel + 1, k, p =>
    if ¬ running then
      { dispatched := [], errors := [], receives := 0, pool := p }
    else if ¬ onPacketValid then
      { dispatched := [], errors := [], receives := 0, pool := p }
    else
      let a := poolAcquire p
      let result := recv k
      if -result = 11 ∨ result = AVERROR_EOF then
        { dispatched := [], errors := [], receives := 1, pool := (poolRelease a.2 a.1).1 }
      else if result < 0 then
        { dispatched := [], errors := [result], receives := 1, pool := a.2 }
      else
        let o := pullFromEncoder recv running onPacketValid fuel (k + 1) a.2
        { dispatched := k :: o.dispatched, errors := o.errors,
          receives := o.receives + 1, pool := o.pool }

/-- The observable state of a `NAVCodecContext` as touched by the caller-facing
operations: the `opened` flag, whether the Pump Thread has been spawned
(`thread != nullptr`), the `running` flag, the work queue `inQueue`, the three
callback validity flags, the number of `threadWake.notify_one()` calls issued so
far, and whether `avcodec_free_context` has released the engine handle. -/
structure CtxState where
  opened : Bool
  threadSpawned : Bool
  running : Bool
  inQueue : List WorkItem
  onFrameValid : Bool
  onPacketValid : Bool
  onErrorValid : Bool
  wakeSignals : Nat
  engineFreed : Bool
deriving DecidableEq, Repr

/-- A freshly constructed context: not opened, no thread, `running = true`
(member initializer in codec-context.h), empty queue, all callback slots
invalid. -/
def ctxInit : CtxState :=
  { opened := false, threadSpawned := false, running := true, inQueue := [],
    onFrameValid := false, onPacketValid := false, onErrorValid := false,
    wakeSignals := 0, engineFreed := false }

/-- A caller-facing operation on the context. `openCtx` carries the `int`
returned by `avcodec_open2`; `sendPacket` carries the `int` returned by the
direct `avcodec_send_packet` call it performs; the `setOn*` operations carry
whether a non-null function was passed. -/
inductive ApiOp where
  | openCtx (engineInit : Int)
  | sendFrame (id : Nat)
  | sendPacket (engineResult : Int) (id : Nat)
  | setOnFrame (handler : Bool)
  | setOnPacket (handler : Bool)
  | setOnError (handler : Bool)
  | free
deriving DecidableEq, Repr

/-- A synchronous failure surfaced to the caller as a thrown host-runtime
exception. -/
inductive ApiError where
  | alreadyOpened
  | engineOpenFailed (code : Int)
  | sendPacketFailed (code : Int)
deriving DecidableEq, Repr

/-- The caller-facing operations of `NAVCodecContext`, each as in the source:

* `Open` (lines 246-273): throws if `opened` is already set; otherwise calls
  `avcodec_open2` and throws on a negative result; only on success sets
  `opened = true` and spawns the Pump Thread (`thread = new std::thread(...)`,
  the only thread creation in the program).
* `SendFrame` (lines 298-308): under the lock, appends a frame work item to
  `inQueue`, signals `threadWake`, and returns `true`; it cannot fail.
* `SendPacket` (lines 275-281): calls `avcodec_send_packet` directly on the
  caller thread, throws on a negative result, and never touches `inQueue`.
* `SetOnFrame`/`SetOnPacket` (lines 329-365): registering a non-null handler
  sets the validity flag and signals `threadWake`; clearing resets the flag
  without a signal.
* `SetOnError` (lines 371-385): sets or clears the validity flag; no signal.
* `Free` (lines 234-244): sets `running = false`, releases the engine handle
  via `avcodec_free_context`, signals `threadWake`, joins the thread. -/
def apiCall (s : CtxState) : ApiOp → CtxState × Option ApiError
  | .openCtx engineInit =>
    if s.opened then
      (s, some .alreadyOpened)
    else if engineInit < 0 then
      (s, some (.engineOpenFailed engineInit))
    else
      ({ s with opened := true, threadSpawned := true }, none)
  | .sendFrame id =>
    ({ s with inQueue := s.inQueue ++ [WorkItem.frame id],
              wakeSignals := s.wakeSignals + 1 }, none)
  | .sendPacket engineResult _ =>
    (s, if engineResult < 0 then some (.sendPacketFailed engineResult) else none)
  | .setOnFrame handler =>
    if handler then
      ({ s with onFrameValid := true, wakeSignals := s.wakeSignals + 1 }, none)
    else
      ({ s with onFrameValid := false }, none)
  | .setOnPacket handler =>
    if handler then
      ({ s with onPacketValid := true, wakeSignals := s.wakeSignals + 1 }, none)
    else
      ({ s with onPacketValid := false }, none)
  | .setOnError handler =>
    ({ s with onErrorValid := handler }, none)
  | .free =>
    ({ s with running := false, engineFreed := true,
              wakeSignals := s.wakeSignals + 1 }, none)

/-- The internal steps of `NAVCodecContext::Free` (codec-context.cpp lines
234-244), in program order. -/
inductive TeardownEvent where
  | setRunningFalse
  | freeEngineHandle
  | notifyWake
  | joinThread
deriving DecidableEq, Repr

/-- The order in which `Free` performs its steps in the source: `running =
false`, then `avcodec_free_context(&handle)`, then `threadWake.notify_one()`,
then `thread->join()`. -/
def freeEventTrace : List TeardownEvent :=
  [.setRunningFalse, .freeEngineHandle, .notifyWake, .joinThread]

/-- Modelled from the claim (refinement comparison): the teardown order the
claim asserts, namely `running = false`, wake, join, and only then release the
engine handle. -/
def claimedFreeEventOrder : List TeardownEvent :=
  [.setRunningFalse, .notifyWake, .joinThread, .freeEngineHandle]

/-- `NAVCodecContext::WaitForWork` (codec-context.cpp lines 42-49): under the
lock, if `inQueue` is non-empty return immediately; otherwise block on the
`threadWake` condition variable. Returns `true` exactly when the thread blocks. -/
def waitForWork (queueAtWait : List WorkItem) : Bool :=
  if queueAtWait.length > 0 then false else true

/-- The observable outcome of one iteration of the `while (running)` loop of
`NAVCodecContext::ThreadMain` (codec-context.cpp lines 29-39): the feed-phase
outcome, the drain-phase outcome, the content of `inQueue` right after the
feed phase, and whether the iteration ended blocked on the wake condition. -/
structure IterOutcome where
  feed : FeedOutcome
  drain : DrainOutcome
  queueAfterFeed : List WorkItem
  waited : Bool
deriving DecidableEq, Repr

/-- One iteration of the Pump Thread loop: `FeedToCodec`, then `PullFromEncoder`
or `PullFromDecoder` depending on the codec direction, then `WaitForWork` if and
only if nothing was fed. `newSubsDuringFeed` and `newSubsDuringDrain` are the
items concurrently appended to `inQueue` while the feed phase ran unlocked and
while the drain phase ran, so the queue observed by `WaitForWork` is the
post-feed queue extended by `newSubsDuringDrain`. -/
def pumpIteration (engine recv : Nat → Int) (isEncoder isDecoder : Bool)
    (onFrameValid onPacketValid running : Bool) (fuel : Nat)
    (inQueue newSubsDuringFeed newSubsDuringDrain : List WorkItem)
    (framePool packetPool : Pool) : IterOutcome :=
  let fo := feedToCodec engine running inQueue newSubsDuringFeed
  let d :=
    if isEncoder then pullFromEncoder recv running onPacketValid fuel 0 packetPool
    else if isDecoder then pullFromDecoder recv running onFrameValid fuel 0 framePool
    else { dispatched := [], errors := [], receives := 0, pool := framePool }
  { feed := fo.1, drain := d, queueAfterFeed := fo.2,
    waited := if fo.1.fed then false else waitForWork (fo.2 ++ newSubsDuringDrain) }

/-- Engine oracle that accepts the first two sends and reports `EAGAIN` from the
third on (concrete instance used to evaluate the feed-phase theorems). -/
def engineBusyAt2 : Nat → Int :=
  fun k => if k < 2 then 0 else AVERROR_EAGAIN

/-- Engine oracle that reports a hard error (`-22`, `AVERROR(EINVAL)`) on the
third send and accepts all others. -/
def engineErrorAt2 : Nat → Int :=
  fun k => if k = 2 then -22 else 0

/-- Engine oracle that accepts every send. -/
def engineAcceptAll : Nat → Int :=
  fun _ => 0

/-- Receive oracle that always reports end of stream. -/
def recvEof : Nat → Int :=
  fun _ => AVERROR_EOF

/-- Receive oracle that always reports `AVERROR(EAGAIN)`. -/
def recvAgain : Nat → Int :=
  fun _ => AVERROR_EAGAIN

/-- A concrete five-element submission sequence. -/
def q5 : List WorkItem :=
  [.frame 0, .frame 1, .frame 2, .frame 3, .frame 4]

/-- The pool state after seven acquires and six releases: five pooled
containers with one still checked out. -/
def poolPreBurst : Pool :=
  poolRun poolInit (List.replicate 7 PoolOp.acquire ++ List.replicate 6 PoolOp.release)

/-- A context state whose `opened` flag is already set. -/
def ctxOpenedState : CtxState :=
  { ctxInit with opened := true }

/-! ## Helper lemmas about the feed loop and pool reachability -/

/-- If the engine accepts every send, the feed loop sends the whole local queue
in order, discards nothing, and leaves nothing over. -/
theorem feedLoop_accept_of_nonneg (engine : Nat → Int) (j : Nat) (q : List WorkItem)
    (hacc : ∀ i, 0 ≤ engine i) :
    feedLoop engine true j q =
      { sent := q, attempts := q, errored := [], errorEvents := 0, leftover := [],
        fed := !q.isEmpty } := by
  induction q generalizing j with
  | nil => rfl
  | cons a q ih =>
    have h0 : ¬ engine j = AVERROR_EAGAIN := by
      intro heq
      have := hacc j
      rw [heq] at this
      norm_num [AVERROR_EAGAIN] at this
    have h1 : ¬ engine j < 0 := not_lt.mpr (hacc j)
    simp [feedLoop, h0, h1, ih (j + 1)]

/-- If the engine accepts the first `k` sends of the phase and reports
`AVERROR(EAGAIN)` on send `k`, the feed loop sends exactly the first `k` items,
attempts exactly the first `k + 1`, emits no error, and leaves items `k` onward
unconsumed in order. -/
theorem feedLoop_busy_eq (engine : Nat → Int) (q : List WorkItem) (j k : Nat)
    (hk : k < q.length)
    (hacc : ∀ i, i < k → 0 ≤ engine (j + i))
    (hbusy : engine (j + k) = AVERROR_EAGAIN) :
    feedLoop engine true j q =
      { sent := q.take k, attempts := q.take (k + 1), errored := [], errorEvents := 0,
        leftover := q.drop k, fed := decide (0 < k) } := by
  induction q generalizing j k with
  | nil => simp at hk
  | cons a q ih =>
    cases k with
    | zero =>
      have hb : engine j = AVERROR_EAGAIN := by simpa using hbusy
      simp [feedLoop, hb]
    | succ k =>
      have h0 : 0 ≤ engine j := by simpa using hacc 0 (Nat.succ_pos k)
      have hne : ¬ engine j = AVERROR_EAGAIN := by
        intro heq
        rw [heq] at h0
        norm_num [AVERROR_EAGAIN] at h0
      have hlt : ¬ engine j < 0 := not_lt.mpr h0
      have hacc1 : ∀ i, i < k → 0 ≤ engine (j + 1 + i) := by
        intro i hi
        have h := hacc (i + 1) (Nat.succ_lt_succ hi)
        rw [show j + (i + 1) = j + 1 + i by omega] at h
        exact h
      have hbusy1 : engine (j + 1 + k) = AVERROR_EAGAIN := by
        rw [show j + 1 + k = j + (k + 1) by omega]
        exact hbusy
      have ih1 := ih (j + 1) k (by simpa using hk) hacc1 hbusy1
      simp [feedLoop, hne, hlt, ih1]

/-- If the engine accepts the first `k` sends and reports a hard error (negative
and not `EAGAIN`) on send `k`, the feed loop sends the first `k` items, emits
exactly one error event for item `k`, which is discarded, and leaves the items
after it unconsumed in order. -/
theorem feedLoop_error_eq (engine : Nat → Int) (q : List WorkItem) (j k : Nat)
    (hk : k < q.length)
    (hacc : ∀ i, i < k → 0 ≤ engine (j + i))
    (herr : engine (j + k) < 0)
    (hne : engine (j + k) ≠ AVERROR_EAGAIN) :
    feedLoop engine true j q =
      { sent := q.take k, attempts := q.take (k + 1), errored := [q.get ⟨k, hk⟩],
        errorEvents := 1, leftover := q.drop (k + 1), fed := decide (0 < k) } := by
  induction q generalizing j k with
  | nil => simp at hk
  | cons a q ih =>
    cases k with
    | zero =>
      have he : engine j < 0 := by simpa using herr
      have hb : ¬ engine j = AVERROR_EAGAIN := by simpa using hne
      simp [feedLoop, hb, he]
    | succ k =>
      have h0 : 0 ≤ engine j := by simpa using hacc 0 (Nat.succ_pos k)
      have hne0 : ¬ engine j = AVERROR_EAGAIN := by
        intro heq
        rw [heq] at h0
        norm_num [AVERROR_EAGAIN] at h0
      have hlt : ¬ engine j < 0 := not_lt.mpr h0
      have hacc1 : ∀ i, i < k → 0 ≤ engine (j + 1 + i) := by
        intro i hi
        have h := hacc (i + 1) (Nat.succ_lt_succ hi)
        rw [show j + (i + 1) = j + 1 + i by omega] at h
        exact h
      have herr1 : engine (j + 1 + k) < 0 := by
        rw [show j + 1 + k = j + (k + 1) by omega]
        exact herr
      have hne1 : engine (j + 1 + k) ≠ AVERROR_EAGAIN := by
        rw [show j + 1 + k = j + (k + 1) by omega]
        exact hne
      have ih1 := ih (j + 1) k (by simpa using hk) hacc1 herr1 hne1
      simp [feedLoop, hne0, hlt, ih1]

/-- Running a valid operation sequence from a reachable pool state reaches a
reachable pool state. -/
theorem poolRun_reachable {p : Pool} {ops : List PoolOp} (hp : PoolReachable p)
    (hv : poolValidOps p ops = true) : PoolReachable (poolRun p ops) := by
  induction ops generalizing p with
  | nil => simpa [poolRun] using hp
  | cons op ops ih =>
    cases op with
    | acquire =>
      exact ih (PoolReachable.acquire hp) (by simpa [poolValidOps] using hv)
    | release =>
      rw [poolValidOps, Bool.and_eq_true] at hv
      exact ih (PoolReachable.release hp (by simpa using hv.1)) hv.2

/-! ## Claim theorems -/

/-- Claim C1: the feed phase sends submitted items to the engine in strict
submission order; when the engine reports busy on the `k`-th item, the feed
phase stops with exactly the first `k + 1` items attempted and the first `k`
accepted, emits no error, and returns the `k`-th and all later local items to
the front of the Work Queue in their original order, ahead of any concurrently
submitted items, so that a subsequent iteration (here with an accepting engine)
feeds them before the newer submissions. -/
theorem feed_busy_preserves_order (engine engine2 : Nat → Int)
    (q newSubs : List WorkItem) (k : Nat)
    (hk : k < q.length)
    (hacc : ∀ i, i < k → 0 ≤ engine i)
    (hbusy : engine k = AVERROR_EAGAIN)
    (hacc2 : ∀ i, 0 ≤ engine2 i) :
    (feedToCodec engine true q newSubs).1.attempts = q.take (k + 1) ∧
    (feedToCodec engine true q newSubs).1.sent = q.take k ∧
    (feedToCodec engine true q newSubs).1.errorEvents = 0 ∧
    (feedToCodec engine true q newSubs).1.leftover = q.drop k ∧
    (feedToCodec engine true q newSubs).2 = q.drop k ++ newSubs ∧
    (feedToCodec engine2 true (q.drop k ++ newSubs) []).1.sent = q.drop k ++ newSubs := by
  have hqne : q.isEmpty = false := by
    cases q
    · simp at hk
    · simp
  have hfl := feedLoop_busy_eq engine q 0 k hk (by simpa using hacc) (by simpa using hbusy)
  have hmain : feedToCodec engine true q newSubs =
      ({ sent := q.take k, attempts := q.take (k + 1), errored := [], errorEvents := 0,
         leftover := q.drop k, fed := decide (0 < k) }, q.drop k ++ newSubs) := by
    simp [feedToCodec, hqne, hfl]
  refine ⟨by rw [hmain], by rw [hmain], by rw [hmain], by rw [hmain], by rw [hmain], ?_⟩
  have hdne : (q.drop k ++ newSubs).isEmpty = false := by
    have : q.drop k ≠ [] := by
      intro h
      have := congrArg List.length h
      simp at this
      omega
    cases hdk : q.drop k
    · exact absurd hdk this
    · simp [hdk]
  have hfl2 := feedLoop_accept_of_nonneg engine2 0 (q.drop k ++ newSubs) hacc2
  simp [feedToCodec, hdne, hfl2]

/-- Claim C1 witness: with a queue of five frames, an engine busy from the third
send on, and one newer submission, the feed phase accepts exactly the first two
items. -/
theorem feed_busy_preserves_order_witness :
    (2 < q5.length) ∧ (∀ i, i < 2 → 0 ≤ engineBusyAt2 i) ∧
    engineBusyAt2 2 = AVERROR_EAGAIN ∧
    (feedToCodec engineBusyAt2 true q5 [WorkItem.frame 9]).1.sent = q5.take 2 ∧
    (feedToCodec engineBusyAt2 true q5 [WorkItem.frame 9]).2 =
      q5.drop 2 ++ [WorkItem.frame 9] := by
  have h := feed_busy_preserves_order engineBusyAt2 engineAcceptAll q5 [WorkItem.frame 9] 2
    (by decide) (by decide) (by decide) (fun _ => Int.le_refl 0)
  exact ⟨by decide, by decide, by decide, h.2.1, h.2.2.2.2.1⟩

/-- Claim C3: when the engine reports a hard error on the `k`-th item of a feed
phase, exactly that item is discarded, exactly one error event is emitted,
feeding stops for the iteration (only the first `k + 1` items are attempted),
the items after the `k`-th are returned to the queue ahead of newer
submissions, and a later iteration with a non-failing engine feeds all of them;
the discarded item is not among them. -/
theorem feed_hard_error_isolation (engine engine2 : Nat → Int)
    (q newSubs : List WorkItem) (k : Nat)
    (hk : k < q.length)
    (hacc : ∀ i, i < k → 0 ≤ engine i)
    (herr : engine k < 0)
    (hne : engine k ≠ AVERROR_EAGAIN)
    (hacc2 : ∀ i, 0 ≤ engine2 i) :
    (feedToCodec engine true q newSubs).1.errored = [q.get ⟨k, hk⟩] ∧
    (feedToCodec engine true q newSubs).1.errorEvents = 1 ∧
    (feedToCodec engine true q newSubs).1.sent = q.take k ∧
    (feedToCodec engine true q newSubs).1.attempts = q.take (k + 1) ∧
    (feedToCodec engine true q newSubs).2 = q.drop (k + 1) ++ newSubs ∧
    (feedToCodec engine2 true (q.drop (k + 1) ++ newSubs) []).1.sent =
      q.drop (k + 1) ++ newSubs := by
  have hqne : q.isEmpty = false := by
    cases q
    · simp at hk
    · simp
  have hfl := feedLoop_error_eq engine q 0 k hk (by simpa using hacc) (by simpa using herr)
    (by simpa using hne)
  have hmain : feedToCodec engine true q newSubs =
      ({ sent := q.take k, attempts := q.take (k + 1), errored := [q.get ⟨k, hk⟩],
         errorEvents := 1, leftover := q.drop (k + 1), fed := decide (0 < k) },
       q.drop (k + 1) ++ newSubs) := by
    simp [feedToCodec, hqne, hfl]
  refine ⟨by rw [hmain], by rw [hmain], by rw [hmain], by rw [hmain], by rw [hmain], ?_⟩
  by_cases hdk : (q.drop (k + 1) ++ newSubs) = []
  · simp [feedToCodec, hdk]
  · have hdne : (q.drop (k + 1) ++ newSubs).isEmpty = false := by
      simpa [List.isEmpty_iff] using hdk
    have hfl2 := feedLoop_accept_of_nonneg engine2 0 (q.drop (k + 1) ++ newSubs) hacc2
    simp [feedToCodec, hdne, hfl2]

/-- Claim C3 witness: a hard error on the third of five submitted frames drops
exactly that frame, fires one error event, and the fourth and fifth frames are
fed on the next iteration. -/
theorem feed_hard_error_isolation_witness :
    (2 < q5.length) ∧ (∀ i, i < 2 → 0 ≤ engineErrorAt2 i) ∧
    engineErrorAt2 2 < 0 ∧ engineErrorAt2 2 ≠ AVERROR_EAGAIN ∧
    (feedToCodec engineErrorAt2 true q5 []).1.errored = [WorkItem.frame 2] ∧
    (feedToCodec engineErrorAt2 true q5 []).1.errorEvents = 1 ∧
    (feedToCodec engineAcceptAll true ((feedToCodec engineErrorAt2 true q5 []).2) []).1.sent =
      [WorkItem.frame 3, WorkItem.frame 4] := by
  have h := feed_hard_error_isolation engineErrorAt2 engineAcceptAll q5 [] 2
    (by decide) (by decide) (by decide) (by decide) (fun _ => Int.le_refl 0)
  refine ⟨by decide, by decide, by decide, by decide, ?_, h.2.1, ?_⟩
  · rw [h.1]
    decide
  · rw [h.2.2.2.2.1]
    have := h.2.2.2.2.2
    simpa using this

/-- Claim C2 counterexample: the pool state reached from the empty pool by seven
acquires followed by six releases of checked-out containers is reachable and
still has a container checked out, yet releasing that container leaves five
pooled containers with height zero — the pool size exceeds `height + 4`
immediately after a Release, refuting the claimed invariant. -/
theorem pool_bound_counterexample :
    PoolReachable poolPreBurst ∧
    1 ≤ poolPreBurst.height ∧
    (poolStep poolPreBurst PoolOp.release).fifo.length >
      (poolStep poolPreBurst PoolOp.release).height + 4 := by
  refine ⟨poolRun_reachable PoolReachable.init (by decide), by decide, by decide⟩

/-- Claim C2 (amended): a Release never grows the pool past the `height + 4`
bound — immediately after any Release the pool size is at most the larger of
`height + 4` and the size just before the Release — but it does not restore the
bound when the pool was already oversized, because it burns at most one
container; when the bound is exceeded, the container destroyed is exactly the
oldest pooled one (the front of the FIFO after the pushed container). -/
theorem pool_release_bound (p : Pool) (c : Nat) :
    (poolRelease p c).1.fifo.length ≤
      max ((poolRelease p c).1.height + 4) p.fifo.length ∧
    (poolRelease p c).2 =
      (if p.fifo.length + 1 > p.height - 1 + 4 then (p.fifo ++ [c]).head? else none) := by
  constructor
  · simp only [poolRelease]
    split
    · next hgt =>
        split
        · next heq => simp at heq
        · next b rest heq =>
            have hrest : rest.length = p.fifo.length := by
              have hlen := congrArg List.length heq
              simp at hlen
              omega
            simp [hrest]
    · next hle =>
        have hle2 : p.fifo.length + 1 ≤ p.height - 1 + 4 := by
          have := not_lt.mp hle
          simpa using this
        exact le_max_of_le_left (by simpa using hle2)
  · simp only [poolRelease]
    split
    · next hgt =>
        split
        · next heq => simp at heq
        · next b rest heq =>
            have hcond : p.fifo.length + 1 > p.height - 1 + 4 := by
              have := hgt
              simp at this
              omega
            rw [if_pos hcond, heq]
            rfl
    · next hle =>
        have hcond : ¬ p.fifo.length + 1 > p.height - 1 + 4 := by
          have := not_lt.mp hle
          simp at this
          omega
        rw [if_neg hcond]

/-- Claim C4 counterexample: a decoder drain iteration whose receive reports
end of stream emits an error event and does not return the acquired container
to its pool (the pool stays empty while its height counts the container as
checked out), contrary to the claim that both directions treat end-of-stream
identically to busy with no error event. -/
theorem drain_eof_decoder_counterexample :
    (pullFromDecoder recvEof true true 1 0 poolInit).errors = [AVERROR_EOF] ∧
    (pullFromDecoder recvEof true true 1 0 poolInit).pool.fifo = [] ∧
    (pullFromDecoder recvEof true true 1 0 poolInit).pool.height = 1 := by
  decide

/-- Claim C4 (amended): only the encoder drain treats an end-of-stream receive
result identically to busy — the acquired container is released back to the
packet pool, draining stops after that one receive, no error event is emitted,
and the outcome is the same as if the engine had reported `AVERROR(EAGAIN)`;
the decoder drain instead takes the hard-error path on end of stream: it emits
one error event, stops, and does not return the acquired container to the
frame pool. -/
theorem drain_eof_behavior (recv recvBusy : Nat → Int) (p : Pool) (fuel k : Nat)
    (heof : recv k = AVERROR_EOF)
    (hbusy : recvBusy k = AVERROR_EAGAIN) :
    pullFromEncoder recv true true (fuel + 1) k p =
      { dispatched := [], errors := [], receives := 1,
        pool := (poolRelease (poolAcquire p).2 (poolAcquire p).1).1 } ∧
    pullFromEncoder recv true true (fuel + 1) k p =
      pullFromEncoder recvBusy true true (fuel + 1) k p ∧
    pullFromDecoder recv true true (fuel + 1) k p =
      { dispatched := [], errors := [recv k], receives := 1,
        pool := (poolAcquire p).2 } := by
  have henc : pullFromEncoder recv true true (fuel + 1) k p =
      { dispatched := [], errors := [], receives := 1,
        pool := (poolRelease (poolAcquire p).2 (poolAcquire p).1).1 } := by
    simp [pullFromEncoder, heof]
  have hencBusy : pullFromEncoder recvBusy true true (fuel + 1) k p =
      { dispatched := [], errors := [], receives := 1,
        pool := (poolRelease (poolAcquire p).2 (poolAcquire p).1).1 } := by
    simp [pullFromEncoder, hbusy, AVERROR_EAGAIN]
  have heofNe : ¬ (-(recv k) = 11) := by
    rw [heof]
    norm_num [AVERROR_EOF]
  have heofNeg : recv k < 0 := by
    rw [heof]
    norm_num [AVERROR_EOF]
  refine ⟨henc, by rw [henc, hencBusy], ?_⟩
  simp [pullFromDecoder, heofNe, heofNeg]

/-- Claim C4 witness: with an end-of-stream receive oracle and the empty packet
pool, one encoder drain step releases the container and reports no error. -/
theorem drain_eof_behavior_witness :
    recvEof 0 = AVERROR_EOF ∧ recvAgain 0 = AVERROR_EAGAIN ∧
    pullFromEncoder recvEof true true 1 0 poolInit =
      { dispatched := [], errors := [], receives := 1,
        pool := (poolRelease (poolAcquire poolInit).2 (poolAcquire poolInit).1).1 } ∧
    pullFromEncoder recvEof true true 1 0 poolInit =
      pullFromEncoder recvAgain true true 1 0 poolInit := by
  have h := drain_eof_behavior recvEof recvAgain poolInit 0 0 rfl rfl
  exact ⟨rfl, rfl, h.1, h.2.1⟩

/-- Claim C5 counterexample: submitting a packet is not a fire-and-forget
enqueue — when the engine rejects the direct `avcodec_send_packet` call with a
negative result, `SendPacket` throws a synchronous error and nothing is ever
appended to the Work Queue, refuting the claim for packet units. -/
theorem submit_packet_throws_counterexample :
    (apiCall ctxInit (ApiOp.sendPacket (-22) 7)).2 =
      some (ApiError.sendPacketFailed (-22)) ∧
    (apiCall ctxInit (ApiOp.sendPacket (-22) 7)).1.inQueue = [] := by
  decide

/-- Claim C5 (amended): frame submission is a fire-and-forget enqueue — it
appends the unit to the Work Queue tail under the lock, signals the wake
condition, and never fails; packet submission, however, bypasses the Work Queue
entirely, sending the packet synchronously to the engine on the caller thread,
and throws exactly when the engine reports a negative result. -/
theorem submit_frame_fire_and_forget (s : CtxState) (id : Nat) (res : Int) :
    apiCall s (ApiOp.sendFrame id) =
      ({ s with inQueue := s.inQueue ++ [WorkItem.frame id],
                wakeSignals := s.wakeSignals + 1 }, none) ∧
    (apiCall s (ApiOp.sendPacket res id)).1 = s ∧
    ((apiCall s (ApiOp.sendPacket res id)).2 = none ↔ 0 ≤ res) := by
  refine ⟨rfl, rfl, ?_⟩
  by_cases h : res < 0 <;> (simp [apiCall, h]; try omega)

/-- Claim C6 counterexample: the source order of `Free` differs from the
claimed order — in particular the native engine handle is released before the
Pump Thread is joined, not after. -/
theorem free_order_counterexample :
    freeEventTrace ≠ claimedFreeEventOrder ∧
    freeEventTrace.indexOf TeardownEvent.freeEngineHandle <
      freeEventTrace.indexOf TeardownEvent.joinThread := by
  decide

/-- Claim C6 (amended): teardown sets `running = false`, then releases the
native engine handle, and only then wakes the Pump Thread and joins it; the
resulting context state has `running` cleared, the engine freed, and one
additional wake signal issued. -/
theorem free_teardown_order (s : CtxState) :
    freeEventTrace.indexOf TeardownEvent.setRunningFalse <
      freeEventTrace.indexOf TeardownEvent.freeEngineHandle ∧
    freeEventTrace.indexOf TeardownEvent.freeEngineHandle <
      freeEventTrace.indexOf TeardownEvent.notifyWake ∧
    freeEventTrace.indexOf TeardownEvent.notifyWake <
      freeEventTrace.indexOf TeardownEvent.joinThread ∧
    (apiCall s ApiOp.free).1.running = false ∧
    (apiCall s ApiOp.free).1.engineFreed = true ∧
    (apiCall s ApiOp.free).1.wakeSignals = s.wakeSignals + 1 := by
  exact ⟨by decide, by decide, by decide, rfl, rfl, rfl⟩

/-- Claim C7: calling `Open` on an already-opened context fails synchronously
with the already-opened error and changes nothing; a successful `Open` sets the
`opened` flag and spawns the Pump Thread; and no caller-facing operation other
than `Open` ever changes whether the Pump Thread exists. -/
theorem open_semantics (s : CtxState) (e : Int) (op : ApiOp) :
    (s.opened = true → apiCall s (ApiOp.openCtx e) = (s, some ApiError.alreadyOpened)) ∧
    (s.opened = false → 0 ≤ e →
      (apiCall s (ApiOp.openCtx e)).1.opened = true ∧
      (apiCall s (ApiOp.openCtx e)).1.threadSpawned = true ∧
      (apiCall s (ApiOp.openCtx e)).2 = none) ∧
    ((∀ x : Int, op ≠ ApiOp.openCtx x) →
      (apiCall s op).1.threadSpawned = s.threadSpawned) := by
  refine ⟨?_, ?_, ?_⟩
  · intro h
    simp [apiCall, h]
  · intro h he
    simp [apiCall, h, not_lt.mpr he]
  · intro h
    cases op with
    | openCtx x => exact absurd rfl (h x)
    | setOnFrame b => cases b <;> rfl
    | setOnPacket b => cases b <;> rfl
    | sendFrame id => rfl
    | sendPacket r id => rfl
    | setOnError b => rfl
    | free => rfl

/-- Claim C7 witness: opening an already-opened context is rejected without
change; opening the fresh context succeeds and spawns the thread; `Free` does
not change whether the thread exists. -/
theorem open_semantics_witness :
    apiCall ctxOpenedState (ApiOp.openCtx 0) = (ctxOpenedState, some ApiError.alreadyOpened) ∧
    ((apiCall ctxInit (ApiOp.openCtx 0)).1.opened = true ∧
     (apiCall ctxInit (ApiOp.openCtx 0)).1.threadSpawned = true ∧
     (apiCall ctxInit (ApiOp.openCtx 0)).2 = none) ∧
    (apiCall ctxInit ApiOp.free).1.threadSpawned = ctxInit.threadSpawned := by
  exact ⟨(open_semantics ctxOpenedState 0 ApiOp.free).1 rfl,
         (open_semantics ctxInit 0 ApiOp.free).2.1 rfl (by decide),
         (open_semantics ctxInit 0 ApiOp.free).2.2 (fun x h => nomatch h)⟩

/-- Claim C8: a pump iteration ends blocked on the wake condition exactly when
the feed phase accepted nothing and the Work Queue (including submissions that
arrived during the iteration) is observed empty under the lock — so it never
waits when work is pending and never spins when idle; submission and teardown
each signal the wake condition. -/
theorem pump_idle_transition (engine recv : Nat → Int)
    (isEncoder isDecoder onFrameValid onPacketValid : Bool) (fuel : Nat)
    (q newSubsFeed newSubsDrain : List WorkItem) (fp pp : Pool)
    (s : CtxState) (id : Nat) :
    ((pumpIteration engine recv isEncoder isDecoder onFrameValid onPacketValid true
        fuel q newSubsFeed newSubsDrain fp pp).waited = true ↔
      ((pumpIteration engine recv isEncoder isDecoder onFrameValid onPacketValid true
          fuel q newSubsFeed newSubsDrain fp pp).feed.fed = false ∧
       (pumpIteration engine recv isEncoder isDecoder onFrameValid onPacketValid true
          fuel q newSubsFeed newSubsDrain fp pp).queueAfterFeed ++ newSubsDrain = [])) ∧
    (apiCall s (ApiOp.sendFrame id)).1.wakeSignals = s.wakeSignals + 1 ∧
    (apiCall s ApiOp.free).1.wakeSignals = s.wakeSignals + 1 := by
  refine ⟨?_, rfl, rfl⟩
  simp only [pumpIteration]
  cases hfed : (feedToCodec engine true q newSubsFeed).1.fed with
  | true => simp [hfed]
  | false =>
    simp only [hfed, if_false, Bool.false_eq_true, false_and]
    cases hq : (feedToCodec engine true q newSubsFeed).2 ++ newSubsDrain with
    | nil => simp [waitForWork, hq]
    | cons b rest => simp [waitForWork, hq]

/-- Claim C9: a drain iteration that finds no callback registered for its unit
kind stops immediately — it performs no receive, acquires nothing, and leaves
the corresponding pool (contents, height, and allocator state) exactly as it
was, for both the decoder and the encoder drain. -/
theorem drain_no_callback_pool_unchanged (recv : Nat → Int) (running : Bool)
    (fuel k : Nat) (p : Pool) :
    pullFromDecoder recv running false fuel k p =
      { dispatched := [], errors := [], receives := 0, pool := p } ∧
    pullFromEncoder recv running false fuel k p =
      { dispatched := [], errors := [], receives := 0, pool := p } := by
  cases fuel <;> cases running <;> simp [pullFromDecoder, pullFromEncoder]

/-- Claim C10: when the native engine initialization inside `Open` fails, the
error branch is atomic — the context state is returned unchanged, `opened`
stays false, no Pump Thread is spawned, and a subsequent `Open` on the same
context is not rejected as already opened. -/
theorem open_failure_atomic (s : CtxState) (e e2 : Int)
    (hopen : s.opened = false) (he : e < 0) :
    apiCall s (ApiOp.openCtx e) = (s, some (ApiError.engineOpenFailed e)) ∧
    (apiCall s (ApiOp.openCtx e)).1.opened = false ∧
    (apiCall s (ApiOp.openCtx e)).1.threadSpawned = s.threadSpawned ∧
    (apiCall (apiCall s (ApiOp.openCtx e)).1 (ApiOp.openCtx e2)).2 ≠
      some ApiError.alreadyOpened := by
  have h1 : apiCall s (ApiOp.openCtx e) = (s, some (ApiError.engineOpenFailed e)) := by
    simp [apiCall, hopen, he]
  refine ⟨h1, by rw [h1]; exact hopen, by rw [h1], ?_⟩
  rw [h1]
  by_cases h2 : e2 < 0 <;> simp [apiCall, hopen, h2]

/-- Claim C10 witness: a failed engine initialization on the fresh context
leaves it unchanged and a retry is not rejected as already opened. -/
theorem open_failure_atomic_witness :
    ctxInit.opened = false ∧ (-22 : Int) < 0 ∧
    apiCall ctxInit (ApiOp.openCtx (-22)) =
      (ctxInit, some (ApiError.engineOpenFailed (-22))) ∧
    (apiCall (apiCall ctxInit (ApiOp.openCtx (-22))).1 (ApiOp.openCtx 0)).2 ≠
      some ApiError.alreadyOpened := by
  exact ⟨rfl, by decide, (open_failure_atomic ctxInit (-22) 0 rfl (by decide)).1,
         (open_failure_atomic ctxInit (-22) 0 rfl (by decide)).2.2.2⟩

end CodecPump
